import Mathlib

/-!
Verification development for the cocowork ACP core (crates/cocowork-core).

The definitions below are a shallow embedding of the Rust source:

  - src/sandbox/permissions.rs  (PermissionManager, SecurityLevel, FileOperation)
  - src/sandbox/terminal.rs     (TerminalHandler::execute, policy admission)
  - src/sandbox/filesystem.rs   (FileSystemHandler operations)
  - src/acp/client_delegate.rs  (AgentClientDelegate)
  - src/acp/connection.rs       (send_request / message_loop correlation,
                                 load_session capability gate,
                                 handle_agent_request dispatch)
  - src/acp/session.rs          (Session::process_update fold)
  - src/types/*.rs              (TaskState, SessionUpdate, TerminalPolicy, errors)

Paths are modelled as lists of components (the result of the lexical part of
PermissionManager::normalize_path; filesystem canonicalization is
environment-dependent and outside the pure model).  Wall-clock timestamps are
modelled as an abstract Nat supplied by the caller of each fold step.
The SHA-256 hash of file contents is modelled as an abstract function
parameter.  Theorems about each claim follow the definitions.
-/

namespace Cocowork

/-- Minimal JSON value model for serde_json::Value fields carried by
tool-call input/output records. -/
inductive Json where
  | null : Json
  | bool (b : Bool) : Json
  | num (n : Int) : Json
  | str (s : String) : Json
  | arr (elems : List Json) : Json
  | obj (fields : List (String × Json)) : Json
  deriving Repr

namespace Json

/-- Model of value.get(key) on a JSON object followed by as_str(). -/
def getStr (j : Json) (key : String) : Option String :=
  match j with
  | .obj fields =>
      match fields.find? (fun kv => kv.1 == key) with
      | some (_, .str s) => some s
      | _ => none
  | _ => none

end Json

/-- Helper for strContains: the pattern is a prefix of some suffix of the
haystack. -/
def charsContain (hay pat : List Char) : Bool :=
  match hay with
  | [] => pat.isPrefixOf ([] : List Char)
  | _ :: tl => pat.isPrefixOf hay || charsContain tl pat

/-- Rust str::contains for plain substring patterns. -/
def strContains (s pat : String) : Bool :=
  charsContain s.data pat.data

/-- A path after normalization, as a list of components
(prefix-on-components, not on strings). -/
abbrev PathC := List String

/-- PermissionManager::clean_path: drop CurDir components and let a ParentDir
component pop the previous one (lexical cleanup of the non-existent tail). -/
def cleanPath (p : PathC) : PathC :=
  (p.foldl
    (fun acc c =>
      if c = ".." then acc.dropLast
      else if c = "." then acc
      else acc ++ [c]) [])

/-- SecurityLevel from sandbox/permissions.rs. -/
inductive SecurityLevel where
  | strict : SecurityLevel
  | autoAcceptEdits : SecurityLevel
  | trust : SecurityLevel
  deriving Repr, DecidableEq

/-- FileOperation from sandbox/permissions.rs. -/
inductive FileOperation where
  | read : FileOperation
  | write : FileOperation
  | delete : FileOperation
  | list : FileOperation
  | move : FileOperation
  | execute : FileOperation
  deriving Repr, DecidableEq

/-- PermissionEntry: a normalized path with its security level
(granted_at and session_scoped are irrelevant to the claims here). -/
structure PermissionEntry where
  path : PathC
  securityLevel : SecurityLevel
  deriving Repr, DecidableEq

/-- PermissionManager: granted paths with entries and the default level
(Default for SecurityLevel is AutoAcceptEdits). -/
structure PermissionManager where
  entries : List PermissionEntry
  defaultSecurityLevel : SecurityLevel := .autoAcceptEdits
  deriving Repr, DecidableEq

namespace PermissionManager

/-- PermissionManager::is_path_granted: some granted entry is a
component-wise prefix of the (normalized) path. -/
def isPathGranted (pm : PermissionManager) (p : PathC) : Bool :=
  pm.entries.any (fun e => e.path.isPrefixOf p)

/-- PermissionManager::check_access (path is normalized first). -/
def checkAccess (pm : PermissionManager) (p : PathC) : Bool :=
  pm.isPathGranted (cleanPath p)

/-- PermissionManager::get_security_level: level of the first entry whose
path is a prefix of the normalized path, else the default level. -/
def getSecurityLevel (pm : PermissionManager) (p : PathC) : SecurityLevel :=
  match pm.entries.find? (fun e => e.path.isPrefixOf (cleanPath p)) with
  | some e => e.securityLevel
  | none => pm.defaultSecurityLevel

/-- PermissionManager::requires_confirmation: match on
(security level, operation) exactly as in the source. -/
def requiresConfirmation (pm : PermissionManager) (p : PathC)
    (operation : FileOperation) : Bool :=
  match pm.getSecurityLevel p, operation with
  | .trust, _ => false
  | .autoAcceptEdits, .write => false
  | .autoAcceptEdits, .read => false
  | .autoAcceptEdits, .list => false
  | .autoAcceptEdits, .delete => true
  | .autoAcceptEdits, .move => false
  | .autoAcceptEdits, .execute => true
  | .strict, op => decide (op ≠ .read ∧ op ≠ .list)

end PermissionManager

/-- SandboxError from error.rs (variants relevant to the claims). -/
inductive SandboxError where
  | accessDenied (detail : String) : SandboxError
  | pathNotGranted (path : String) : SandboxError
  | pathOutsideSandbox (path : String) : SandboxError
  | fileNotFound (path : String) : SandboxError
  | directoryNotFound (path : String) : SandboxError
  | watchError (detail : String) : SandboxError
  | invalidPath (detail : String) : SandboxError
  deriving Repr, DecidableEq

/-- AcpError from error.rs (variants relevant to the claims). -/
inductive AcpError where
  | connectionFailed (detail : String) : AcpError
  | invalidMessage (detail : String) : AcpError
  | sessionNotFound (id : String) : AcpError
  | timeout : AcpError
  | capabilityNotSupported (name : String) : AcpError
  deriving Repr, DecidableEq

/-- Top-level Error from error.rs (constructors used by the embedded code). -/
inductive Error where
  | acp (e : AcpError) : Error
  | sandbox (e : SandboxError) : Error
  deriving Repr, DecidableEq

/-- thiserror Display for SandboxError. -/
def SandboxError.render : SandboxError → String
  | .accessDenied d => "Access denied: " ++ d
  | .pathNotGranted p => "Path not granted: " ++ p
  | .pathOutsideSandbox p => "Path outside sandbox: " ++ p
  | .fileNotFound p => "File not found: " ++ p
  | .directoryNotFound p => "Directory not found: " ++ p
  | .watchError d => "Watch error: " ++ d
  | .invalidPath d => "Invalid path: " ++ d

/-- thiserror Display for AcpError. -/
def AcpError.render : AcpError → String
  | .connectionFailed d => "Connection failed: " ++ d
  | .invalidMessage d => "Invalid message: " ++ d
  | .sessionNotFound s => "Session not found: " ++ s
  | .timeout => "Request timeout"
  | .capabilityNotSupported n => "Capability not supported: " ++ n

/-- thiserror Display for Error (to_string used when replying on the wire). -/
def Error.render : Error → String
  | .acp e => "ACP protocol error: " ++ e.render
  | .sandbox e => "Sandbox error: " ++ e.render

/-- Rust to_string_lossy on a component path, for error payloads. -/
def renderPath (p : PathC) : String :=
  "/" ++ String.intercalate "/" p

/-- PermissionManager::validate_access: PathNotGranted when no granted
entry is a component prefix of the normalized path. -/
def PermissionManager.validateAccess (pm : PermissionManager) (p : PathC) :
    Except Error Unit :=
  if pm.isPathGranted (cleanPath p) then .ok ()
  else .error (.sandbox (.pathNotGranted (renderPath (cleanPath p))))

/-- TerminalPolicy from types/mod.rs. -/
structure TerminalPolicy where
  enabled : Bool
  requireConfirmation : Bool
  allowedCommands : List String
  blockedPatterns : List String
  deriving Repr, DecidableEq

/-- TerminalPolicy::default from types/mod.rs. -/
def TerminalPolicy.defaultPolicy : TerminalPolicy where
  enabled := true
  requireConfirmation := true
  allowedCommands := ["ls", "cat", "grep", "find", "mv", "cp", "mkdir", "touch"]
  blockedPatterns := ["rm -rf", "sudo", "chmod", "chown"]

/-- Split a character list at every occurrence of a separator (structural
helper used to take path components of the executable string). -/
def splitChar (sep : Char) : List Char → List (List Char)
  | [] => [[]]
  | c :: rest =>
      let r := splitChar sep rest
      if c = sep then [] :: r
      else
        match r with
        | h :: t => (c :: h) :: t
        | [] => [[c]]

/-- std::path::Path::file_name on the executable string: the last normal
component; None when the path ends in a root or in a ParentDir component. -/
def pathFileName (s : String) : Option String :=
  let comps := ((splitChar '/' s.data).map String.mk).filter
    (fun c => c ≠ "" && c ≠ ".")
  match comps.getLast? with
  | some l => if l = ".." then none else some l
  | none => none

/-- TerminalHandler::execute, lines 27-30: basename of the executable,
falling back to the raw command string. -/
def cmdNameOf (command : String) : String :=
  (pathFileName command).getD command

/-- TerminalHandler::execute, lines 41-45: the string checked against the
blocked patterns (basename of the executable joined with the args). -/
def fullCmdOf (command : String) (args : List String) : String :=
  if args.isEmpty then cmdNameOf command
  else cmdNameOf command ++ " " ++ String.intercalate " " args

namespace TerminalHandler

/-- Policy admission stage of TerminalHandler::execute (sandbox/terminal.rs
lines 14-56): every rejection happens before the child process is spawned,
so the admission decision is a pure function of the policy and argv. -/
def execute (policy : TerminalPolicy) (command : String) (args : List String) :
    Except Error Unit :=
  if !policy.enabled then
    .error (.sandbox (.accessDenied "Terminal execution is disabled by policy"))
  else
    let cmdName := cmdNameOf command
    if !policy.allowedCommands.isEmpty &&
        !policy.allowedCommands.any (fun c => c == cmdName) then
      .error (.sandbox (.accessDenied
        ("Command " ++ cmdName ++ " is not allowed by policy")))
    else
      let fullCmd := fullCmdOf command args
      if policy.blockedPatterns.any (fun pat => strContains fullCmd pat) then
        .error (.sandbox (.accessDenied
          ("Command blocked by policy (matched blocked pattern): " ++ fullCmd)))
      else
        .ok ()

end TerminalHandler

/-- AgentClientDelegate::get_terminal_policy: raw is the stored value of the
settings key terminal_policy; parse stands for serde_json::from_str, an
environment function.  Missing key or failed parse falls back to
TerminalPolicy::default. -/
def getTerminalPolicy (raw : Option String)
    (parse : String → Option TerminalPolicy) : TerminalPolicy :=
  (raw.bind parse).getD TerminalPolicy.defaultPolicy

/-- A filesystem entry: a regular file with its byte contents, or a
directory. -/
inductive FsEntry where
  | file (content : String) : FsEntry
  | dir : FsEntry
  deriving Repr, DecidableEq

/-- The host filesystem as a finite map from normalized component paths to
entries. -/
structure FS where
  entries : List (PathC × FsEntry)
  deriving Repr, DecidableEq

namespace FS

/-- Lookup of a path in the filesystem map. -/
def lookup (fs : FS) (p : PathC) : Option FsEntry :=
  (fs.entries.find? (fun kv => kv.1 == p)).map (fun kv => kv.2)

/-- Path::exists. -/
def exists0 (fs : FS) (p : PathC) : Bool :=
  (fs.lookup p).isSome

/-- Path::is_dir. -/
def isDir (fs : FS) (p : PathC) : Bool :=
  fs.lookup p == some .dir

/-- Insert or replace the entry stored at a path. -/
def setEntry (fs : FS) (p : PathC) (e : FsEntry) : FS :=
  if fs.exists0 p then
    { entries := fs.entries.map (fun kv => if kv.1 == p then (p, e) else kv) }
  else
    { entries := fs.entries ++ [(p, e)] }

/-- fs::create_dir_all on the parent of a path: add directory entries for
every missing proper prefix of the path. -/
def createDirAll (fs : FS) (p : PathC) : FS :=
  (List.range p.length).foldl
    (fun acc i =>
      let pre := p.take (i + 1)
      if acc.exists0 pre then acc else acc.setEntry pre .dir) fs

/-- Remove a path and, when it is a directory, its whole subtree
(fs::remove_file / fs::remove_dir_all). -/
def removeSubtree (fs : FS) (p : PathC) : FS :=
  { entries := fs.entries.filter (fun kv => !(p.isPrefixOf kv.1)) }

/-- fs::rename: move the entry at from (and its subtree) to the
destination path. -/
def rename (fs : FS) (src dst : PathC) : FS :=
  { entries := fs.entries.map (fun kv =>
      if src.isPrefixOf kv.1 then (dst ++ kv.1.drop src.length, kv.2) else kv) }

end FS

/-- FileWriteResult from sandbox/filesystem.rs. -/
structure FileWriteResult where
  path : String
  created : Bool
  size : Nat
  hashBefore : Option String
  hashAfter : String
  deriving Repr, DecidableEq

/-- FileMetadata (the fields a directory listing carries). -/
structure FileMetadata where
  path : String
  name : String
  isDirEntry : Bool
  deriving Repr, DecidableEq

namespace FileSystemHandler

/-- FileSystemHandler::read_text_file: validate access, then read; a
missing file yields FileNotFound.  The hash parameter is unused here; the
filesystem is returned unchanged (read-only operation). -/
def readTextFile (pm : PermissionManager) (fs : FS) (p : PathC) :
    Except Error String × FS :=
  match pm.validateAccess p with
  | .error e => (.error e, fs)
  | .ok () =>
      match fs.lookup p with
      | some (.file c) => (.ok c, fs)
      | _ => (.error (.sandbox (.fileNotFound (renderPath p))), fs)

/-- FileSystemHandler::write_file: validate access first; then create the
missing parent directories, record whether the file existed and its prior
hash, write the contents, and report the write result.  hash stands for the
SHA-256 hex digest of a byte string (compute_file_hash). -/
def writeFile (pm : PermissionManager) (hash : String → String) (fs : FS)
    (p : PathC) (content : String) : Except Error FileWriteResult × FS :=
  match pm.validateAccess p with
  | .error e => (.error e, fs)
  | .ok () =>
      let fs1 :=
        if fs.exists0 p.dropLast then fs else fs.createDirAll p.dropLast
      let existedBefore := fs1.exists0 p
      let hashBefore :=
        match fs1.lookup p with
        | some (.file c) => some (hash c)
        | _ => none
      let fs2 := fs1.setEntry p (.file content)
      (.ok { path := renderPath p, created := !existedBefore,
             size := content.length, hashBefore := hashBefore,
             hashAfter := hash content }, fs2)

/-- FileSystemHandler::delete_file: validate access first; a missing path
yields FileNotFound; a directory is removed with its subtree. -/
def deleteFile (pm : PermissionManager) (fs : FS) (p : PathC) :
    Except Error Unit × FS :=
  match pm.validateAccess p with
  | .error e => (.error e, fs)
  | .ok () =>
      if !fs.exists0 p then
        (.error (.sandbox (.fileNotFound (renderPath p))), fs)
      else
        (.ok (), fs.removeSubtree p)

/-- FileSystemHandler::move_file: validate both endpoints first; a missing
source yields FileNotFound; missing parent directories of the destination
are created before the rename. -/
def moveFile (pm : PermissionManager) (fs : FS) (src dst : PathC) :
    Except Error Unit × FS :=
  match pm.validateAccess src with
  | .error e => (.error e, fs)
  | .ok () =>
      match pm.validateAccess dst with
      | .error e => (.error e, fs)
      | .ok () =>
          if !fs.exists0 src then
            (.error (.sandbox (.fileNotFound (renderPath src))), fs)
          else
            let fs1 :=
              if fs.exists0 dst.dropLast then fs else fs.createDirAll dst.dropLast
            (.ok (), fs1.rename src dst)

/-- FileSystemHandler::create_directory: validate access first, then
fs::create_dir_all on the path itself. -/
def createDirectory (pm : PermissionManager) (fs : FS) (p : PathC) :
    Except Error Unit × FS :=
  match pm.validateAccess p with
  | .error e => (.error e, fs)
  | .ok () =>
      ((.ok ()), (fs.createDirAll p).setEntry p .dir)

/-- FileSystemHandler::list_directory: validate access first; a missing
path yields DirectoryNotFound, a non-directory InvalidPath; the filesystem
is unchanged (read-only). -/
def listDirectory (pm : PermissionManager) (fs : FS) (p : PathC) :
    Except Error (List FileMetadata) × FS :=
  match pm.validateAccess p with
  | .error e => (.error e, fs)
  | .ok () =>
      if !fs.exists0 p then
        (.error (.sandbox (.directoryNotFound (renderPath p))), fs)
      else if !fs.isDir p then
        (.error (.sandbox (.invalidPath (renderPath p ++ " is not a directory"))), fs)
      else
        (.ok ((fs.entries.filter
                (fun kv => kv.1.length == p.length + 1 && p.isPrefixOf kv.1)).map
              (fun kv =>
                { path := renderPath kv.1,
                  name := (kv.1.getLast?).getD "",
                  isDirEntry := kv.2 == .dir })), fs)

end FileSystemHandler

/-- JsonRpcError payload (code and message) from acp_types.rs. -/
structure JsonRpcError where
  code : Int
  message : String
  deriving Repr, DecidableEq

/-- JsonRpcResponse from acp_types.rs: an id with exactly one of
result / error populated by the builders in protocol.rs. -/
structure JsonRpcResponse where
  id : Json
  result : Option Json
  rpcError : Option JsonRpcError
  deriving Repr

/-- ProtocolHandler::create_error_response. -/
def createErrorResponse (requestId : Json) (code : Int) (message : String) :
    JsonRpcResponse :=
  { id := requestId, result := none, rpcError := some { code := code, message := message } }

/-- ProtocolHandler::create_fs_write_response. -/
def createFsWriteResponse (requestId : Json) : JsonRpcResponse :=
  { id := requestId, result := some (.obj [("_meta", .obj [])]), rpcError := none }

/-- Parameters of an agent fs/write_file (alias fs/write_text_file)
request after serde decoding. -/
structure FsWriteFileParams where
  sessionId : String
  path : PathC
  content : String

namespace AgentClientDelegate

/-- AgentClientDelegate::write_text_file (client_delegate.rs lines 84-99):
the confirmation gate is consulted before any filesystem work; only when it
passes does FileSystemHandler::write_file run.  The filesystem state is
threaded explicitly. -/
def writeTextFile (pm : PermissionManager) (hash : String → String) (fs : FS)
    (p : PathC) (content : String) : Except Error Unit × FS :=
  if pm.requiresConfirmation p .write then
    (.error (.sandbox (.accessDenied
      ("Write requires confirmation for: " ++ renderPath p))), fs)
  else
    match FileSystemHandler.writeFile pm hash fs p content with
    | (.ok _, fs2) => (.ok (), fs2)
    | (.error e, fs2) => (.error e, fs2)

end AgentClientDelegate

/-- The fs/write_file arm of AcpConnection::handle_agent_request
(connection.rs lines 338-353): a delegate error is converted into a
JSON-RPC error response with code -32603 carrying the rendered error
message. -/
def handleFsWriteRequest (pm : PermissionManager) (hash : String → String)
    (fs : FS) (requestId : Json) (p : FsWriteFileParams) :
    JsonRpcResponse × FS :=
  match AgentClientDelegate.writeTextFile pm hash fs p.path p.content with
  | (.ok (), fs2) => (createFsWriteResponse requestId, fs2)
  | (.error e, fs2) => (createErrorResponse requestId (-32603) e.render, fs2)

/-- The set of request ids with a registered one-shot waiter slot
(the keys of AcpConnection::pending_requests). -/
abbrev PendingIds := List Nat

/-- HashMap::insert on the waiter map keys (ids are unique, drawn from a
monotone counter). -/
def insertPending (m : PendingIds) (id : Nat) : PendingIds :=
  if m.contains id then m else m ++ [id]

/-- HashMap::remove on the waiter map keys. -/
def removePending (m : PendingIds) (id : Nat) : PendingIds :=
  m.filter (fun x => x ≠ id)

/-- The events that touch the waiter map in connection.rs, with the line
ranges of the source they are read from. -/
inductive ConnEvent where
  /-- send_request_with_receiver lines 173-176: register a fresh slot. -/
  | register (id : Nat) : ConnEvent
  /-- send_request_with_receiver lines 179-183: the transport write failed,
  the slot is removed before the error is returned. -/
  | transportSendFailed (id : Nat) : ConnEvent
  /-- message_loop lines 277-287: a response arrived; the dispatcher removes
  the slot (when present) and delivers on it. -/
  | responseArrived (id : Nat) : ConnEvent
  /-- send_request lines 142-144: the 30-second deadline elapsed; the error
  is mapped to Timeout.  The source touches the map nowhere on this path. -/
  | deadlineElapsed (id : Nat) : ConnEvent
  /-- message_loop lines 216-222: the transport closed; the loop breaks
  without clearing the map. -/
  | transportClosed : ConnEvent

/-- The effect of each connection event on the waiter map, read off the
cited lines of connection.rs. -/
def pendingStep (m : PendingIds) : ConnEvent → PendingIds
  | .register id => insertPending m id
  | .transportSendFailed id => removePending m id
  | .responseArrived id => removePending m id
  | .deadlineElapsed _ => m
  | .transportClosed => m

/-- The error send_request reports when the 30-second deadline elapses
(connection.rs line 144). -/
def deadlineError : Error := .acp .timeout

/-- AgentCapabilities from acp_types.rs (fields after initialize). -/
structure AgentCapabilities where
  supportsMcp : Bool
  supportsModes : Bool
  supportsPlans : Bool
  supportsThoughts : Bool
  loadSession : Bool
  deriving Repr, DecidableEq

/-- AcpConnection::load_session (connection.rs lines 494-513): the
capability gate runs before any request is built; the returned list is the
sequence of method names written to the wire by this call. -/
def loadSession (caps : Option AgentCapabilities) (_sessionId : String) :
    Except Error Unit × List String :=
  if !((caps.map (fun c => c.loadSession)).getD false) then
    (.error (.acp (.capabilityNotSupported "loadSession")), [])
  else
    (.ok (), ["session/load"])

/-- ImageSource from types/mod.rs. -/
inductive ImageSource where
  | base64 (mediaType data : String) : ImageSource
  | url (u : String) : ImageSource
  deriving Repr

/-- ContentBlock from types/mod.rs. -/
inductive ContentBlock where
  | text (t : String) : ContentBlock
  | image (source : ImageSource) : ContentBlock
  | toolUse (id name : String) (input : Json) : ContentBlock
  | toolResult (toolUseId content : String) (isError : Option Bool) : ContentBlock
  deriving Repr

/-- TaskStatus state machine from types/task_types.rs. -/
inductive TaskStatus where
  | pending : TaskStatus
  | planning : TaskStatus
  | executing : TaskStatus
  | progressing : TaskStatus
  | completed : TaskStatus
  | cancelled : TaskStatus
  | error : TaskStatus
  deriving Repr, DecidableEq

/-- TaskStatus::is_terminal. -/
def TaskStatus.isTerminal : TaskStatus → Bool
  | .completed => true
  | .cancelled => true
  | .error => true
  | _ => false

/-- StopReason from types/acp_types.rs. -/
inductive StopReason where
  | endTurn : StopReason
  | maxTokens : StopReason
  | cancelled : StopReason
  | error : StopReason
  deriving Repr, DecidableEq

/-- PlanPriority from types/mod.rs. -/
inductive PlanPriority where
  | high : PlanPriority
  | medium : PlanPriority
  | low : PlanPriority
  deriving Repr, DecidableEq

/-- PlanStatus from types/mod.rs. -/
inductive PlanStatus where
  | pending : PlanStatus
  | inProgress : PlanStatus
  | completed : PlanStatus
  | skipped : PlanStatus
  deriving Repr, DecidableEq

/-- PlanEntry from types/mod.rs. -/
structure PlanEntry where
  content : String
  priority : PlanPriority
  status : PlanStatus
  deriving Repr, DecidableEq

/-- MessageBlock from types/session_types.rs: a timestamped sequence of
content blocks per role (system carries plain text). -/
inductive MessageBlock where
  | user (content : List ContentBlock) (timestamp : Nat) : MessageBlock
  | agent (content : List ContentBlock) (timestamp : Nat) : MessageBlock
  | thought (content : List ContentBlock) (timestamp : Nat) : MessageBlock
  | system (content : String) (timestamp : Nat) : MessageBlock
  deriving Repr

/-- ToolCallKind from types/acp_types.rs. -/
inductive ToolCallKind where
  | read | write | delete | move | execute | fetch | search | glob
  | grep | edit | create | term | bash | task | plan | think | other
  deriving Repr, DecidableEq

/-- ToolCallStatus from types/acp_types.rs. -/
inductive ToolCallStatus where
  | pending : ToolCallStatus
  | inProgress : ToolCallStatus
  | completed : ToolCallStatus
  | failed : ToolCallStatus
  | cancelled : ToolCallStatus
  deriving Repr, DecidableEq

/-- FileDiff from types/acp_types.rs (hunks elided: no claim inspects
them). -/
structure FileDiff where
  path : String
  deriving Repr, DecidableEq

/-- ToolCallContent from types/acp_types.rs. -/
inductive ToolCallContent where
  | content (c : ContentBlock) : ToolCallContent
  | diff (d : FileDiff) : ToolCallContent
  deriving Repr

/-- ToolCallState from types/session_types.rs. -/
structure ToolCallState where
  id : String
  title : Option String
  kind : Option ToolCallKind
  status : ToolCallStatus
  content : List ToolCallContent
  input : Option Json
  output : Option Json
  startedAt : Nat
  completedAt : Option Nat
  deriving Repr

/-- ArtifactType from types/artifact_types.rs. -/
inductive ArtifactType where
  | fileCreated | fileModified | fileDeleted | fileMoved
  | directoryCreated | analysisResult | terminalOutput
  deriving Repr, DecidableEq

/-- ArtifactSource tag (from_acp / from_terminal constructors): the
originating tool-call id and the attributed method or command. -/
structure ArtifactSource where
  toolCallId : String
  method : String
  deriving Repr, DecidableEq

/-- Artifact from types/artifact_types.rs, restricted to the fields the
session accumulator populates (the random uuid and wall-clock created_at
are outside the pure model). -/
structure Artifact where
  taskId : String
  artifactType : ArtifactType
  filePath : Option String
  oldPath : Option String
  source : ArtifactSource
  summary : Option String
  deriving Repr, DecidableEq

/-- Artifact::new_file_created (size and hash are the placeholder values
the accumulator passes). -/
def Artifact.newFileCreated (taskId path : String) (source : ArtifactSource) :
    Artifact :=
  { taskId := taskId, artifactType := .fileCreated, filePath := some path,
    oldPath := none, source := source, summary := none }

/-- Artifact::new_file_deleted. -/
def Artifact.newFileDeleted (taskId path : String) (source : ArtifactSource) :
    Artifact :=
  { taskId := taskId, artifactType := .fileDeleted, filePath := some path,
    oldPath := none, source := source, summary := none }

/-- Artifact::new_file_moved. -/
def Artifact.newFileMoved (taskId oldPath newPath : String)
    (source : ArtifactSource) : Artifact :=
  { taskId := taskId, artifactType := .fileMoved, filePath := some newPath,
    oldPath := some oldPath, source := source, summary := none }

/-- Artifact::new_terminal_output (command and captured stdout go into the
summary field). -/
def Artifact.newTerminalOutput (taskId command stdout : String)
    (source : ArtifactSource) : Artifact :=
  { taskId := taskId, artifactType := .terminalOutput, filePath := none,
    oldPath := none, source := source,
    summary := some (command ++ "\n" ++ stdout) }

/-- TaskContext from types/task_types.rs (fields the fold touches). -/
structure TaskContext where
  workingDirectory : String
  currentMode : Option String
  deriving Repr

/-- TaskState from types/task_types.rs: the session accumulator
structure. -/
structure TaskState where
  id : String
  sessionId : String
  agentId : String
  createdAt : Nat
  updatedAt : Nat
  status : TaskStatus
  stopReason : Option StopReason
  errorMessage : Option String
  prompt : List ContentBlock
  workingDirectory : String
  plan : List PlanEntry
  messages : List MessageBlock
  toolCalls : List (String × ToolCallState)
  artifacts : List Artifact
  context : TaskContext
  deriving Repr

/-- TaskState::new. -/
def TaskState.new (id sessionId agentId : String) (prompt : List ContentBlock)
    (workingDirectory : String) (now : Nat) : TaskState :=
  { id := id, sessionId := sessionId, agentId := agentId,
    createdAt := now, updatedAt := now, status := .pending,
    stopReason := none, errorMessage := none, prompt := prompt,
    workingDirectory := workingDirectory, plan := [], messages := [],
    toolCalls := [], artifacts := [],
    context := { workingDirectory := workingDirectory, currentMode := none } }

/-- HashMap lookup on the ordered-by-id tool-call map. -/
def tcGet (m : List (String × ToolCallState)) (id : String) :
    Option ToolCallState :=
  (m.find? (fun kv => kv.1 == id)).map (fun kv => kv.2)

/-- HashMap::insert on the tool-call map: replace an existing binding or
append a new one. -/
def tcInsert (m : List (String × ToolCallState)) (id : String)
    (tc : ToolCallState) : List (String × ToolCallState) :=
  if (m.find? (fun kv => kv.1 == id)).isSome then
    m.map (fun kv => if kv.1 == id then (kv.1, tc) else kv)
  else
    m ++ [(id, tc)]

/-- SessionUpdate union from types/acp_types.rs (including the synthetic
prompt-response-received variant). -/
inductive SessionUpdate where
  | agentMessageChunk (content : ContentBlock) : SessionUpdate
  | userMessageChunk (content : ContentBlock) : SessionUpdate
  | thought (content : ContentBlock) : SessionUpdate
  | toolCall (toolCallId : String) (title : Option String)
      (kind : Option ToolCallKind) (status : ToolCallStatus) : SessionUpdate
  | toolCallUpdate (toolCallId : String) (status : ToolCallStatus)
      (content : Option (List ToolCallContent)) : SessionUpdate
  | plan (entries : List PlanEntry) : SessionUpdate
  | currentModeUpdate (modeId : String) : SessionUpdate
  | availableCommandsUpdate : SessionUpdate
  | promptResponseReceived (stopReason : Option StopReason) : SessionUpdate
  deriving Repr

namespace Session

/-- Session::append_message (session.rs lines 149-190): a chunk of the
same role as the tail message extends that message in place (keeping the
original timestamp); otherwise the message is pushed. -/
def appendMessage (st : TaskState) (m : MessageBlock) : TaskState :=
  match m with
  | .user content ts =>
      match st.messages.getLast? with
      | some (.user lastContent lastTs) =>
          { st with messages :=
              st.messages.dropLast ++ [.user (lastContent ++ content) lastTs] }
      | _ => { st with messages := st.messages ++ [.user content ts] }
  | .agent content ts =>
      match st.messages.getLast? with
      | some (.agent lastContent lastTs) =>
          { st with messages :=
              st.messages.dropLast ++ [.agent (lastContent ++ content) lastTs] }
      | _ => { st with messages := st.messages ++ [.agent content ts] }
  | .thought content ts =>
      match st.messages.getLast? with
      | some (.thought lastContent lastTs) =>
          { st with messages :=
              st.messages.dropLast ++ [.thought (lastContent ++ content) lastTs] }
      | _ => { st with messages := st.messages ++ [.thought content ts] }
  | .system content ts =>
      { st with messages := st.messages ++ [.system content ts] }

/-- Session::extract_artifacts_from_tool_call (session.rs lines 198-273):
on a completed call, derive an artifact from the tool kind and its
input/output JSON. -/
def extractArtifactsFromToolCall (st : TaskState) (tc : ToolCallState) :
    TaskState :=
  match tc.kind with
  | some .write =>
      match tc.input.bind (fun i => i.getStr "path") with
      | some path =>
          { st with artifacts := st.artifacts ++
              [Artifact.newFileCreated st.id path
                { toolCallId := tc.id, method := "fs/write_file" }] }
      | none => st
  | some .delete =>
      match tc.input.bind (fun i => i.getStr "path") with
      | some path =>
          { st with artifacts := st.artifacts ++
              [Artifact.newFileDeleted st.id path
                { toolCallId := tc.id, method := "fs/delete_file" }] }
      | none => st
  | some .move =>
      match tc.input.bind (fun i => i.getStr "oldPath"),
            tc.input.bind (fun i => i.getStr "newPath") with
      | some oldPath, some newPath =>
          { st with artifacts := st.artifacts ++
              [Artifact.newFileMoved st.id oldPath newPath
                { toolCallId := tc.id, method := "fs/move_file" }] }
      | _, _ => st
  | some .execute =>
      match tc.output with
      | some out =>
          let stdout := (out.getStr "stdout").getD ""
          let command := tc.title.getD "command"
          { st with artifacts := st.artifacts ++
              [Artifact.newTerminalOutput st.id command stdout
                { toolCallId := tc.id, method := "" }] }
      | none => st
  | _ => st

/-- Session::process_update (session.rs lines 40-134): fold one
session-update event into the task state; now is the wall clock at fold
time. -/
def processUpdate (now : Nat) (st0 : TaskState) (update : SessionUpdate) :
    TaskState :=
  let st := { st0 with updatedAt := now }
  match update with
  | .plan entries =>
      let st1 := { st with plan := entries }
      if st1.status = .pending then { st1 with status := .planning } else st1
  | .agentMessageChunk content =>
      appendMessage st (.agent [content] now)
  | .userMessageChunk content =>
      appendMessage st (.user [content] now)
  | .thought content =>
      appendMessage st (.thought [content] now)
  | .toolCall toolCallId title kind status =>
      let tc : ToolCallState :=
        { id := toolCallId, title := title, kind := kind, status := status,
          content := [], input := none, output := none,
          startedAt := now, completedAt := none }
      { st with toolCalls := tcInsert st.toolCalls toolCallId tc,
                status := .executing }
  | .toolCallUpdate toolCallId status content =>
      match tcGet st.toolCalls toolCallId with
      | none => st
      | some tc =>
          let tc1 := { tc with
            status := status,
            content := content.getD tc.content,
            completedAt :=
              if status = .completed then some now else tc.completedAt }
          let st1 := { st with toolCalls := tcInsert st.toolCalls toolCallId tc1 }
          if status = .completed then extractArtifactsFromToolCall st1 tc1
          else st1
  | .currentModeUpdate modeId =>
      { st with context := { st.context with currentMode := some modeId } }
  | .availableCommandsUpdate => st
  | .promptResponseReceived sr =>
      match sr with
      | none => st
      | some reason =>
          let newStatus : TaskStatus :=
            match reason with
            | .endTurn => .completed
            | .error => .error
            | .cancelled => .cancelled
            | .maxTokens => .progressing
          { st with stopReason := some reason, status := newStatus }

/-- Fold a stream of updates left-to-right with a fixed fold clock. -/
def foldUpdates (now : Nat) (st : TaskState) (updates : List SessionUpdate) :
    TaskState :=
  updates.foldl (processUpdate now) st

end Session

/-- Confirmation table transcribed from the spec (section 4.5.1):
rows are levels, columns are operations.  Used only to compare the
source function against the spec's words. -/
def specConfirmationTable (level : SecurityLevel) (op : FileOperation) : Bool :=
  match level, op with
  | .trust, _ => false
  | .autoAcceptEdits, op => op = .delete || op = .execute
  | .strict, op => !(op = .read || op = .list)

/-- C6: requires_confirmation(p, op) realizes, for every path, exactly the
spec's confirmation table applied to the path's effective security level:
trust confirms nothing, auto-accept-edits confirms only delete and execute,
strict confirms everything except read and list. -/
theorem claim_C6_confirmation_table (pm : PermissionManager) (p : PathC)
    (op : FileOperation) :
    pm.requiresConfirmation p op =
      specConfirmationTable (pm.getSecurityLevel p) op := by
  unfold PermissionManager.requiresConfirmation specConfirmationTable
  cases pm.getSecurityLevel p <;> cases op <;> rfl

/-- C8: when the agent did not advertise the loadSession capability (no
capability record, or one with load_session = false), load_session returns
CapabilityNotSupported("loadSession") and writes nothing to the wire. -/
theorem claim_C8_load_session_gate (caps : Option AgentCapabilities)
    (sessionId : String)
    (h : (caps.map (fun c => c.loadSession)).getD false = false) :
    loadSession caps sessionId =
      (.error (.acp (.capabilityNotSupported "loadSession")), []) := by
  unfold loadSession
  rw [h]
  rfl

/-- Witness for C8 at a concrete capability record with loadSession
false. -/
theorem claim_C8_witness :
    loadSession
      (some { supportsMcp := false, supportsModes := false,
              supportsPlans := false, supportsThoughts := false,
              loadSession := false }) "S" =
      (.error (.acp (.capabilityNotSupported "loadSession")), []) :=
  claim_C8_load_session_gate
    (some { supportsMcp := false, supportsModes := false,
            supportsPlans := false, supportsThoughts := false,
            loadSession := false }) "S" rfl

/-- C2 (evaluation of the code at the failing input): after registering the
waiter slot for request id 0, the elapsed 30-second deadline reports
Timeout but leaves the slot in the pending-requests map; only response
arrival or a transport send failure removes it. -/
theorem claim_C2_timeout_leaves_slot :
    pendingStep (pendingStep [] (.register 0)) (.deadlineElapsed 0) = [0] ∧
    (pendingStep (pendingStep [] (.register 0)) (.deadlineElapsed 0)).contains 0 = true ∧
    deadlineError = .acp .timeout ∧
    pendingStep [0] (.responseArrived 0) = [] := by
  refine ⟨rfl, rfl, rfl, rfl⟩

/-- C10: a missing terminal_policy key, or a value that fails to parse,
falls back to the built-in default policy (enabled, the eight-command
whitelist, the four blocked patterns); consequently any command whose
basename is outside the whitelist is rejected with AccessDenied. -/
theorem claim_C10_default_terminal_policy (raw : Option String)
    (parse : String → Option TerminalPolicy)
    (h : raw = none ∨ ∃ v, raw = some v ∧ parse v = none) :
    getTerminalPolicy raw parse = TerminalPolicy.defaultPolicy ∧
    TerminalPolicy.defaultPolicy.enabled = true ∧
    TerminalPolicy.defaultPolicy.allowedCommands =
      ["ls", "cat", "grep", "find", "mv", "cp", "mkdir", "touch"] ∧
    TerminalPolicy.defaultPolicy.blockedPatterns =
      ["rm -rf", "sudo", "chmod", "chown"] ∧
    (∀ c args, cmdNameOf c ∉ TerminalPolicy.defaultPolicy.allowedCommands →
      ∃ m, TerminalHandler.execute TerminalPolicy.defaultPolicy c args =
        .error (.sandbox (.accessDenied m))) := by
  refine ⟨?_, rfl, rfl, rfl, ?_⟩
  · rcases h with h | ⟨v, hv, hp⟩
    · rw [h]; rfl
    · rw [hv]; unfold getTerminalPolicy; rw [Option.some_bind, hp]; rfl
  · intro c args hc
    refine ⟨"Command " ++ cmdNameOf c ++ " is not allowed by policy", ?_⟩
    have hany : TerminalPolicy.defaultPolicy.allowedCommands.any
        (fun x => x == cmdNameOf c) = false := by
      rw [List.any_eq_false]
      intro x hx
      simp only [beq_iff_eq]
      intro hEq
      exact hc (hEq ▸ hx)
    have hen : (!TerminalPolicy.defaultPolicy.enabled) = false := rfl
    have hne : TerminalPolicy.defaultPolicy.allowedCommands.isEmpty = false := rfl
    unfold TerminalHandler.execute
    simp [hen, hne, hany]

/-- Witness for C10: with the key absent, the policy is the default, and a
command with basename python is rejected. -/
theorem claim_C10_witness :
    getTerminalPolicy none (fun _ => none) = TerminalPolicy.defaultPolicy ∧
    ∃ m, TerminalHandler.execute TerminalPolicy.defaultPolicy "python" [] =
      .error (.sandbox (.accessDenied m)) := by
  have h := claim_C10_default_terminal_policy none (fun _ => none) (Or.inl rfl)
  refine ⟨h.1, h.2.2.2.2 "python" [] ?_⟩
  intro hmem
  have : (TerminalPolicy.defaultPolicy.allowedCommands.contains (cmdNameOf "python")) = true := by
    exact List.elem_eq_true_of_mem hmem
  exact absurd this (by decide)

/-- The full argv (the executable string followed by the arguments) joined
by spaces: the string the claim's admission condition (c) speaks about.
The source checks the basename-joined string fullCmdOf instead. -/
def argvJoined (command : String) (args : List String) : String :=
  String.intercalate " " (command :: args)

/-- C7 counterexample: with a policy that blocks the pattern sudo, the
command /sudo/ls is admitted (the source checks the basename ls joined
with the args), although the full argv joined by spaces contains the
blocked pattern sudo; so condition (c) of the claim does not hold of
admitted commands. -/
theorem claim_C7_counterexample :
    TerminalHandler.execute
      { enabled := true, requireConfirmation := false,
        allowedCommands := [], blockedPatterns := ["sudo"] }
      "/sudo/ls" [] = .ok () ∧
    strContains (argvJoined "/sudo/ls" []) "sudo" = true :=
  ⟨rfl, rfl⟩

/-- C7 as amended: a command is admitted iff (a) the policy is enabled,
(b) the whitelist is empty or contains the basename of the executable, and
(c) the basename of the executable joined with the args by spaces contains
no blocked pattern; every rejected command yields AccessDenied before any
process is spawned. -/
theorem claim_C7_amended (policy : TerminalPolicy) (command : String)
    (args : List String) :
    (TerminalHandler.execute policy command args = .ok () ↔
      policy.enabled = true ∧
      (policy.allowedCommands = [] ∨
        cmdNameOf command ∈ policy.allowedCommands) ∧
      (∀ pat ∈ policy.blockedPatterns,
        strContains (fullCmdOf command args) pat = false)) ∧
    (TerminalHandler.execute policy command args = .ok () ∨
      ∃ m, TerminalHandler.execute policy command args =
        .error (.sandbox (.accessDenied m))) := by
  cases hb1 : policy.enabled with
  | false =>
      constructor
      · constructor
        · intro hok
          simp [TerminalHandler.execute, hb1] at hok
        · rintro ⟨h1, -, -⟩
          cases h1
      · exact Or.inr ⟨"Terminal execution is disabled by policy",
          by simp [TerminalHandler.execute, hb1]⟩
  | true =>
      cases hb2 : (!policy.allowedCommands.isEmpty &&
          !policy.allowedCommands.any (fun c => c == cmdNameOf command)) with
      | true =>
          have hb2a : policy.allowedCommands.isEmpty = false := by
            have hx := (Bool.and_eq_true_iff.mp hb2).1
            simpa using hx
          have hb2b : policy.allowedCommands.any
              (fun c => c == cmdNameOf command) = false := by
            have hx := (Bool.and_eq_true_iff.mp hb2).2
            simpa using hx
          constructor
          · constructor
            · intro hok
              simp [TerminalHandler.execute, hb1, hb2] at hok
            · rintro ⟨-, h2, -⟩
              rcases h2 with h2 | h2
              · rw [h2] at hb2a
                cases hb2a
              · have := (List.any_eq_false.mp hb2b) _ h2
                simp at this
          · exact Or.inr ⟨"Command " ++ cmdNameOf command ++ " is not allowed by policy",
              by simp [TerminalHandler.execute, hb1, hb2]⟩
      | false =>
          have hwl : policy.allowedCommands = [] ∨
              cmdNameOf command ∈ policy.allowedCommands := by
            rcases Bool.and_eq_false_iff.mp hb2 with hx | hx
            · left
              have hx2 : policy.allowedCommands.isEmpty = true := by simpa using hx
              exact List.isEmpty_iff.mp hx2
            · right
              have hx2 : policy.allowedCommands.any
                  (fun c => c == cmdNameOf command) = true := by simpa using hx
              rcases List.any_eq_true.mp hx2 with ⟨x, hx1, hx3⟩
              have hx4 : x = cmdNameOf command := by simpa using hx3
              exact hx4 ▸ hx1
          cases hb3 : policy.blockedPatterns.any
              (fun pat => strContains (fullCmdOf command args) pat) with
          | true =>
              constructor
              · constructor
                · intro hok
                  simp [TerminalHandler.execute, hb1, hb2, hb3] at hok
                · rintro ⟨-, -, h3⟩
                  rcases List.any_eq_true.mp hb3 with ⟨pat, hp1, hp2⟩
                  rw [h3 pat hp1] at hp2
                  cases hp2
              · exact Or.inr
                  ⟨"Command blocked by policy (matched blocked pattern): " ++
                      fullCmdOf command args,
                    by simp [TerminalHandler.execute, hb1, hb2, hb3]⟩
          | false =>
              have hok : TerminalHandler.execute policy command args = .ok () := by
                simp [TerminalHandler.execute, hb1, hb2, hb3]
              constructor
              · constructor
                · intro hy
                  exact ⟨rfl, hwl, fun pat hp =>
                    Bool.eq_false_iff.mpr ((List.any_eq_false.mp hb3) _ hp)⟩
                · intro hy
                  exact hok
              · exact Or.inl hok

/-- Being a prefix is preserved by extending the list on the right. -/
theorem isPrefixOf_append_right (p l r : List Char)
    (h : p.isPrefixOf l = true) : p.isPrefixOf (l ++ r) = true := by
  rw [List.isPrefixOf_iff_prefix] at h ⊢
  exact h.trans (List.prefix_append l r)

/-- Every character list contains the empty pattern. -/
theorem charsContain_nil (hay : List Char) : charsContain hay [] = true := by
  cases hay with
  | nil => rfl
  | cons c tl => simp [charsContain, List.isPrefixOf]

/-- Containment of a pattern is preserved by appending to the haystack. -/
theorem charsContain_append (hay rest pat : List Char)
    (h : charsContain hay pat = true) :
    charsContain (hay ++ rest) pat = true := by
  induction hay with
  | nil =>
      have hp : pat = [] := by
        cases pat with
        | nil => rfl
        | cons c cs => simp [charsContain, List.isPrefixOf] at h
      subst hp
      simpa using charsContain_nil rest
  | cons c tl ih =>
      unfold charsContain at h ⊢
      rcases Bool.or_eq_true_iff.mp h with hx | hx
      · exact Bool.or_eq_true_iff.mpr
          (Or.inl (by simpa using isPrefixOf_append_right pat (c :: tl) rest hx))
      · exact Bool.or_eq_true_iff.mpr (Or.inr (ih hx))

/-- A substring of a string remains a substring after appending. -/
theorem strContains_append_left (a b pat : String)
    (h : strContains a pat = true) : strContains (a ++ b) pat = true := by
  unfold strContains at h ⊢
  rw [String.data_append]
  exact charsContain_append _ _ _ h

/-- C3: when the effective security level demands confirmation for a write
on the target path, an agent fs/write_file request is short-circuited: the
reply is a JSON-RPC error with code -32603 whose message contains the text
requires confirmation, and the filesystem is unchanged (so no bytes are
written; artifact records are produced only by the session accumulator,
which this code path never reaches). -/
theorem claim_C3_denied_write (pm : PermissionManager) (hash : String → String)
    (fs : FS) (requestId : Json) (p : FsWriteFileParams)
    (h : pm.requiresConfirmation p.path .write = true) :
    (handleFsWriteRequest pm hash fs requestId p).2 = fs ∧
    ∃ msg, (handleFsWriteRequest pm hash fs requestId p).1 =
        createErrorResponse requestId (-32603) msg ∧
      strContains msg "requires confirmation" = true := by
  have hmain : handleFsWriteRequest pm hash fs requestId p =
      (createErrorResponse requestId (-32603)
        (Error.render (.sandbox (.accessDenied
          ("Write requires confirmation for: " ++ renderPath p.path)))), fs) := by
    unfold handleFsWriteRequest AgentClientDelegate.writeTextFile
    rw [h]
    rfl
  refine ⟨by rw [hmain], ⟨_, by rw [hmain], ?_⟩⟩
  show strContains
    ("Sandbox error: " ++ ("Access denied: " ++
      ("Write requires confirmation for: " ++ renderPath p.path)))
    "requires confirmation" = true
  have hsub : strContains
      ("Sandbox error: " ++ "Access denied: " ++ "Write requires confirmation for: ")
      "requires confirmation" = true := by rfl
  have hstep := strContains_append_left
    ("Sandbox error: " ++ "Access denied: " ++ "Write requires confirmation for: ")
    (renderPath p.path) "requires confirmation" hsub
  have heq : ("Sandbox error: " ++ "Access denied: " ++
      "Write requires confirmation for: ") ++ renderPath p.path =
      "Sandbox error: " ++ ("Access denied: " ++
        ("Write requires confirmation for: " ++ renderPath p.path)) := by
    rw [String.append_assoc, String.append_assoc]
  rw [← heq]
  exact hstep

/-- Witness for C3: a path granted at strict level, concrete write
request. -/
theorem claim_C3_witness :
    (handleFsWriteRequest
      { entries := [{ path := ["w"], securityLevel := .strict }] }
      (fun s => s) { entries := [] } .null
      { sessionId := "S", path := ["w", "x"], content := "y" }).2 =
        { entries := [] } ∧
    ∃ msg, (handleFsWriteRequest
      { entries := [{ path := ["w"], securityLevel := .strict }] }
      (fun s => s) { entries := [] } .null
      { sessionId := "S", path := ["w", "x"], content := "y" }).1 =
        createErrorResponse .null (-32603) msg ∧
      strContains msg "requires confirmation" = true :=
  claim_C3_denied_write
    { entries := [{ path := ["w"], securityLevel := .strict }] }
    (fun s => s) { entries := [] } .null
    { sessionId := "S", path := ["w", "x"], content := "y" } rfl

/-- C9: every filesystem handler operation invoked with a path whose
normalized form has no granted entry as a component prefix returns
PathNotGranted and leaves the filesystem untouched; the permission check
precedes every effect, including implicit parent-directory creation on
write and move (move also checks the destination before renaming). -/
theorem claim_C9_check_precedes_effects (pm : PermissionManager) (fs : FS)
    (hash : String → String) (p q : PathC) (content : String)
    (h : pm.isPathGranted (cleanPath p) = false) :
    FileSystemHandler.readTextFile pm fs p =
      (.error (.sandbox (.pathNotGranted (renderPath (cleanPath p)))), fs) ∧
    FileSystemHandler.writeFile pm hash fs p content =
      (.error (.sandbox (.pathNotGranted (renderPath (cleanPath p)))), fs) ∧
    FileSystemHandler.deleteFile pm fs p =
      (.error (.sandbox (.pathNotGranted (renderPath (cleanPath p)))), fs) ∧
    FileSystemHandler.createDirectory pm fs p =
      (.error (.sandbox (.pathNotGranted (renderPath (cleanPath p)))), fs) ∧
    FileSystemHandler.listDirectory pm fs p =
      (.error (.sandbox (.pathNotGranted (renderPath (cleanPath p)))), fs) ∧
    FileSystemHandler.moveFile pm fs p q =
      (.error (.sandbox (.pathNotGranted (renderPath (cleanPath p)))), fs) ∧
    (pm.isPathGranted (cleanPath q) = true →
      FileSystemHandler.moveFile pm fs q p =
        (.error (.sandbox (.pathNotGranted (renderPath (cleanPath p)))), fs)) := by
  have hv : pm.validateAccess p =
      .error (.sandbox (.pathNotGranted (renderPath (cleanPath p)))) := by
    unfold PermissionManager.validateAccess
    rw [h]
    rfl
  refine ⟨?_, ?_, ?_, ?_, ?_, ?_, ?_⟩
  · unfold FileSystemHandler.readTextFile; rw [hv]
  · unfold FileSystemHandler.writeFile; rw [hv]
  · unfold FileSystemHandler.deleteFile; rw [hv]
  · unfold FileSystemHandler.createDirectory; rw [hv]
  · unfold FileSystemHandler.listDirectory; rw [hv]
  · unfold FileSystemHandler.moveFile; rw [hv]
  · intro hq
    have hvq : pm.validateAccess q = .ok () := by
      unfold PermissionManager.validateAccess
      rw [hq]
      rfl
    unfold FileSystemHandler.moveFile
    rw [hvq, hv]

/-- Witness for C9: an ungranted path against a ledger granting only the
prefix w at trust level. -/
theorem claim_C9_witness :
    FileSystemHandler.writeFile
      { entries := [{ path := ["w"], securityLevel := .trust }] }
      (fun s => s) { entries := [] } ["etc", "passwd"] "x" =
      (.error (.sandbox (.pathNotGranted "/etc/passwd")), { entries := [] }) ∧
    FileSystemHandler.moveFile
      { entries := [{ path := ["w"], securityLevel := .trust }] }
      { entries := [] } ["w", "a"] ["etc", "passwd"] =
      (.error (.sandbox (.pathNotGranted "/etc/passwd")), { entries := [] }) := by
  have h := claim_C9_check_precedes_effects
    { entries := [{ path := ["w"], securityLevel := .trust }] }
    { entries := [] } (fun s => s) ["etc", "passwd"] ["w", "a"] "x" rfl
  exact ⟨h.2.1, h.2.2.2.2.2.2 rfl⟩

/-- A fresh task, the state after an end_turn prompt response (terminal),
and two further folds used to evaluate claim C1 on the source fold. -/
def c1Task0 : TaskState := TaskState.new "t" "s" "a" [] "/w" 0

/-- c1Task0 after the synthetic end_turn completion: status completed. -/
def c1Task1 : TaskState :=
  Session.processUpdate 1 c1Task0 (.promptResponseReceived (some .endTurn))

/-- c1Task1 after a plan update (folded while already terminal). -/
def c1Task2 : TaskState :=
  Session.processUpdate 2 c1Task1
    (.plan [{ content := "step", priority := .high, status := .pending }])

/-- c1Task1 after an agent message chunk (folded while already
terminal). -/
def c1Task3 : TaskState :=
  Session.processUpdate 3 c1Task1 (.agentMessageChunk (.text "x"))

/-- C1 (evaluation of the code at the failing input): process_update has no
terminal guard: after the state reaches the terminal status completed, a
subsequent plan update still replaces the plan and a message chunk still
appends to the log, contradicting the freeze the claim states. -/
theorem claim_C1_terminal_not_frozen :
    c1Task1.status = .completed ∧
    c1Task1.status.isTerminal = true ∧
    c1Task1.plan = [] ∧
    c1Task2.plan =
      [{ content := "step", priority := .high, status := .pending }] ∧
    c1Task2.status = .completed ∧
    c1Task1.messages.length = 0 ∧
    c1Task3.messages.length = 1 :=
  ⟨rfl, rfl, rfl, rfl, rfl, rfl, rfl⟩

/-- Extracting artifacts from a completed tool call never changes the
tool-call map. -/
theorem extract_preserves_toolCalls (st : TaskState) (tc : ToolCallState) :
    (Session.extractArtifactsFromToolCall st tc).toolCalls = st.toolCalls := by
  unfold Session.extractArtifactsFromToolCall
  split
  any_goals rfl
  all_goals (split <;> rfl)

/-- Updating in place the binding of a present key yields the new value on
lookup. -/
theorem tcGet_map_update (m : List (String × ToolCallState)) (id : String)
    (tcNew : ToolCallState) :
    tcGet (m.map (fun kv => if kv.1 == id then (kv.1, tcNew) else kv)) id =
      if (tcGet m id).isSome then some tcNew else none := by
  induction m with
  | nil => rfl
  | cons kv tl ih =>
      by_cases hkv : (kv.1 == id) = true
      · have hif : (if kv.1 == id then (kv.1, tcNew) else kv) = (kv.1, tcNew) :=
          if_pos hkv
        unfold tcGet
        rw [List.map_cons, hif]
        simp [List.find?_cons, hkv]
      · have hkvf : (kv.1 == id) = false := by simpa using hkv
        have hif : (if kv.1 == id then (kv.1, tcNew) else kv) = kv := if_neg hkv
        unfold tcGet at ih ⊢
        rw [List.map_cons, hif]
        simp only [List.find?_cons, hkvf]
        exact ih

/-- HashMap::insert over a present key: the subsequent lookup returns the
inserted value. -/
theorem tcGet_tcInsert_self (m : List (String × ToolCallState)) (id : String)
    (tc tcNew : ToolCallState) (h : tcGet m id = some tc) :
    tcGet (tcInsert m id tcNew) id = some tcNew := by
  have hsome : ((m.find? (fun kv => kv.1 == id)).isSome) = true := by
    unfold tcGet at h
    cases hf : m.find? (fun kv => kv.1 == id) with
    | none => rw [hf] at h; cases h
    | some kv => rfl
  unfold tcInsert
  rw [if_pos hsome]
  rw [tcGet_map_update]
  unfold tcGet at h ⊢
  rw [h]
  rfl

/-- C4 as amended: a tool-call-update whose id is present updates the
call's status, replaces the accumulated content with the event's fragments
when present (earlier fragments are not kept), and records completed_at on
the transition to completed. -/
theorem claim_C4_amended (now : Nat) (st : TaskState) (id : String)
    (status : ToolCallStatus) (content : Option (List ToolCallContent))
    (tc : ToolCallState) (h : tcGet st.toolCalls id = some tc) :
    tcGet (Session.processUpdate now st
        (.toolCallUpdate id status content)).toolCalls id =
      some { tc with status := status,
                     content := content.getD tc.content,
                     completedAt :=
                       if status = .completed then some now
                       else tc.completedAt } := by
  unfold Session.processUpdate
  dsimp only
  rw [h]
  dsimp only
  split
  · rw [extract_preserves_toolCalls]
    exact tcGet_tcInsert_self st.toolCalls id tc _ h
  · exact tcGet_tcInsert_self st.toolCalls id tc _ h

/-- The in-progress tool call used to evaluate C4 on the source fold. -/
def c4Tc : ToolCallState :=
  { id := "t1", title := none, kind := none, status := .inProgress,
    content := [.content (.text "a")], input := none, output := none,
    startedAt := 0, completedAt := none }

/-- A task state holding c4Tc under its id. -/
def c4State : TaskState :=
  { TaskState.new "t" "s" "a" [] "/w" 0 with toolCalls := [("t1", c4Tc)] }

/-- c4State after a second content-carrying update for the same call. -/
def c4After : TaskState :=
  Session.processUpdate 5 c4State
    (.toolCallUpdate "t1" .inProgress (some [.content (.text "b")]))

/-- C4 counterexample: a tool-call-update carrying one new fragment leaves
the call with exactly that fragment; the fragment accumulated from the
earlier update is dropped, not preserved as the claim states. -/
theorem claim_C4_counterexample :
    (tcGet c4After.toolCalls "t1").map (fun tc => tc.content) =
      some [.content (.text "b")] ∧
    (tcGet c4After.toolCalls "t1").map (fun tc => tc.content) ≠
      some [.content (.text "a"), .content (.text "b")] := by
  refine ⟨rfl, ?_⟩
  intro hcontra
  have h1 : (some [ToolCallContent.content (.text "b")] :
      Option (List ToolCallContent)) =
      some [.content (.text "a"), .content (.text "b")] := hcontra
  have h2 := congrArg (fun o => Option.map List.length o) h1
  simp at h2

/-- Witness for C4: a completed update with no content payload keeps the
accumulated content and records completed_at. -/
theorem claim_C4_witness :
    tcGet (Session.processUpdate 7 c4State
        (.toolCallUpdate "t1" .completed none)).toolCalls "t1" =
      some { c4Tc with status := .completed,
                       content := c4Tc.content,
                       completedAt := some 7 } :=
  claim_C4_amended 7 c4State "t1" .completed none c4Tc rfl

/-- The three streaming chunk kinds of claim C5 (agent-message-chunk,
user-message-chunk, thought). -/
inductive ChunkKind where
  | user : ChunkKind
  | agent : ChunkKind
  | thought : ChunkKind

/-- The session-update a chunk of the given kind arrives as. -/
def chunkUpdate : ChunkKind → ContentBlock → SessionUpdate
  | .user, c => .userMessageChunk c
  | .agent, c => .agentMessageChunk c
  | .thought, c => .thought c

/-- The message-log variant a chunk kind accumulates into. -/
def chunkMsg : ChunkKind → List ContentBlock → Nat → MessageBlock
  | .user, cs, ts => .user cs ts
  | .agent, cs, ts => .agent cs ts
  | .thought, cs, ts => .thought cs ts

/-- Whether the tail message of the log has the given chunk kind. -/
def tailKindIs (k : ChunkKind) (msgs : List MessageBlock) : Bool :=
  match msgs.getLast?, k with
  | some (.user _ _), .user => true
  | some (.agent _ _), .agent => true
  | some (.thought _ _), .thought => true
  | _, _ => false

/-- A list with a known last element decomposes as dropLast plus that
element. -/
theorem eq_dropLast_append_of_getLast {α : Type} (l : List α) (x : α)
    (h : l.getLast? = some x) : l = l.dropLast ++ [x] := by
  induction l with
  | nil => cases h
  | cons a tl ih =>
      cases tl with
      | nil =>
          have hx : x = a := by
            simpa using h.symm
          subst hx
          rfl
      | cons b tl2 =>
          rw [List.getLast?_cons_cons] at h
          have := ih h
          calc a :: b :: tl2 = a :: ((b :: tl2).dropLast ++ [x]) := by rw [← this]
            _ = (a :: b :: tl2).dropLast ++ [x] := by simp

/-- One chunk whose kind matches the tail message extends that message in
place, keeping its timestamp. -/
theorem processUpdate_chunk_extends (k : ChunkKind) (now : Nat)
    (st : TaskState) (c : ContentBlock) (acc : List ContentBlock) (ts : Nat)
    (h : st.messages.getLast? = some (chunkMsg k acc ts)) :
    (Session.processUpdate now st (chunkUpdate k c)).messages =
      st.messages.dropLast ++ [chunkMsg k (acc ++ [c]) ts] := by
  cases k with
  | user =>
      show (Session.appendMessage { st with updatedAt := now }
        (.user [c] now)).messages = _
      unfold Session.appendMessage
      have hproj : ({ st with updatedAt := now } : TaskState).messages =
          st.messages := rfl
      rw [hproj, h]
      rfl
  | agent =>
      show (Session.appendMessage { st with updatedAt := now }
        (.agent [c] now)).messages = _
      unfold Session.appendMessage
      have hproj : ({ st with updatedAt := now } : TaskState).messages =
          st.messages := rfl
      rw [hproj, h]
      rfl
  | thought =>
      show (Session.appendMessage { st with updatedAt := now }
        (.thought [c] now)).messages = _
      unfold Session.appendMessage
      have hproj : ({ st with updatedAt := now } : TaskState).messages =
          st.messages := rfl
      rw [hproj, h]
      rfl

/-- One chunk whose kind does not match the tail message appends a fresh
single-fragment message timestamped now. -/
theorem processUpdate_chunk_appends (k : ChunkKind) (now : Nat)
    (st : TaskState) (c : ContentBlock)
    (h : tailKindIs k st.messages = false) :
    (Session.processUpdate now st (chunkUpdate k c)).messages =
      st.messages ++ [chunkMsg k [c] now] := by
  cases k with
  | user =>
      show (Session.appendMessage { st with updatedAt := now }
        (.user [c] now)).messages = _
      unfold Session.appendMessage
      have hproj : ({ st with updatedAt := now } : TaskState).messages =
          st.messages := rfl
      rw [hproj]
      unfold tailKindIs at h
      cases hl : st.messages.getLast? with
      | none => rfl
      | some m =>
          rw [hl] at h
          cases m with
          | user a t => cases h
          | agent a t => rfl
          | thought a t => rfl
          | system a t => rfl
  | agent =>
      show (Session.appendMessage { st with updatedAt := now }
        (.agent [c] now)).messages = _
      unfold Session.appendMessage
      have hproj : ({ st with updatedAt := now } : TaskState).messages =
          st.messages := rfl
      rw [hproj]
      unfold tailKindIs at h
      cases hl : st.messages.getLast? with
      | none => rfl
      | some m =>
          rw [hl] at h
          cases m with
          | user a t => rfl
          | agent a t => cases h
          | thought a t => rfl
          | system a t => rfl
  | thought =>
      show (Session.appendMessage { st with updatedAt := now }
        (.thought [c] now)).messages = _
      unfold Session.appendMessage
      have hproj : ({ st with updatedAt := now } : TaskState).messages =
          st.messages := rfl
      rw [hproj]
      unfold tailKindIs at h
      cases hl : st.messages.getLast? with
      | none => rfl
      | some m =>
          rw [hl] at h
          cases m with
          | user a t => rfl
          | agent a t => rfl
          | thought a t => cases h
          | system a t => rfl

/-- Folding a run of same-kind chunks onto a log whose tail message already
has that kind appends all fragments to that tail message. -/
theorem fold_chunks_extend (k : ChunkKind) (cs : List ContentBlock) :
    ∀ (now : Nat) (st : TaskState) (acc : List ContentBlock) (ts : Nat),
      st.messages.getLast? = some (chunkMsg k acc ts) →
      (Session.foldUpdates now st (cs.map (chunkUpdate k))).messages =
        st.messages.dropLast ++ [chunkMsg k (acc ++ cs) ts] := by
  induction cs with
  | nil =>
      intro now st acc ts h
      show st.messages = st.messages.dropLast ++ [chunkMsg k (acc ++ []) ts]
      rw [List.append_nil]
      exact eq_dropLast_append_of_getLast st.messages _ h
  | cons c rest ih =>
      intro now st acc ts h
      have hstep := processUpdate_chunk_extends k now st c acc ts h
      have hfold : Session.foldUpdates now st ((c :: rest).map (chunkUpdate k)) =
          Session.foldUpdates now (Session.processUpdate now st (chunkUpdate k c))
            (rest.map (chunkUpdate k)) := rfl
      rw [hfold]
      have hlast : (Session.processUpdate now st
          (chunkUpdate k c)).messages.getLast? =
          some (chunkMsg k (acc ++ [c]) ts) := by
        rw [hstep]
        simp
      have := ih now (Session.processUpdate now st (chunkUpdate k c))
        (acc ++ [c]) ts hlast
      rw [this, hstep]
      simp

/-- C5: folding N same-kind chunks (agent, user, or thought), with no
intervening different-kind message and a tail that is not already of that
kind, appends exactly one message of that variant holding the N fragments
in arrival order; the instance N = 1 states that a chunk whose kind differs
from the tail appends a new message. -/
theorem claim_C5_chunk_merging (k : ChunkKind) (now : Nat) (st : TaskState)
    (cs : List ContentBlock) (h1 : cs ≠ [])
    (h2 : tailKindIs k st.messages = false) :
    (Session.foldUpdates now st (cs.map (chunkUpdate k))).messages =
      st.messages ++ [chunkMsg k cs now] := by
  cases cs with
  | nil => cases h1 rfl
  | cons c rest =>
      have hfirst := processUpdate_chunk_appends k now st c h2
      have hfold : Session.foldUpdates now st ((c :: rest).map (chunkUpdate k)) =
          Session.foldUpdates now (Session.processUpdate now st (chunkUpdate k c))
            (rest.map (chunkUpdate k)) := rfl
      rw [hfold]
      have hlast : (Session.processUpdate now st
          (chunkUpdate k c)).messages.getLast? = some (chunkMsg k [c] now) := by
        rw [hfirst]
        simp
      have hext := fold_chunks_extend k rest now
        (Session.processUpdate now st (chunkUpdate k c)) [c] now hlast
      rw [hext, hfirst]
      simp

/-- Witness for C5: two agent chunks folded onto a fresh task state yield
one agent message with both fragments in order. -/
theorem claim_C5_witness :
    (Session.foldUpdates 4 (TaskState.new "t" "s" "a" [] "/w" 0)
      ([ContentBlock.text "he", ContentBlock.text "llo"].map
        (chunkUpdate .agent))).messages =
      (TaskState.new "t" "s" "a" [] "/w" 0).messages ++
        [chunkMsg .agent [ContentBlock.text "he", ContentBlock.text "llo"] 4] :=
  claim_C5_chunk_merging .agent 4 (TaskState.new "t" "s" "a" [] "/w" 0)
    [ContentBlock.text "he", ContentBlock.text "llo"]
    (by simp) rfl

end Cocowork
